import Mathlib

/-!
Shallow embedding of the simulation core of `merge-runner-ui.py`
(an endless side-scrolling runner with periodic boss encounters),
together with theorems checking the specification's claims against it.

Rendering, audio and file I/O are external collaborators; random draws and
collision-detection results are passed in explicitly as environment data so
that every gameplay mutation of the source is reproduced as a pure function.
-/

namespace MergeRunner

/-- Python `int()` applied to a float: truncation toward zero. -/
def pyInt (q : ℚ) : ℤ := if 0 ≤ q then ⌊q⌋ else ⌈q⌉

/-- A boss projectile (`Projectile.__init__` / `Projectile.update`):
position and velocity. -/
structure Projectile where
  x : ℚ
  y : ℚ
  vx : ℚ
  vy : ℚ
deriving DecidableEq, Repr

/-- The boss (`Boss.__init__`): health, max health, shoot timer, cached
phase, and world position. -/
structure Boss where
  health : ℤ
  max_health : ℤ
  shoot_timer : ℚ
  phase : ℤ
  x : ℚ
  y : ℚ
deriving DecidableEq, Repr

/-- A cosmetic explosion emitter (`create_explosion`): position plus the
remaining lifetimes of its particles. -/
structure Emitter where
  x : ℚ
  y : ℚ
  particles : List ℚ
deriving DecidableEq, Repr

/-- One decay step of an emitter (`e.update()` in `on_update`): every
particle ages by one fixed frame step and expired particles are dropped. -/
def emitterUpdate (e : Emitter) : Emitter :=
  { e with particles :=
      (e.particles.map (fun t => t - 1 / 60)).filter (fun t => decide (0 < t)) }

/-- The divisor used for the boss health ratio in `Boss.update_behavior`,
line 129: `max(1, self.max_health)`. -/
def bossDiv (b : Boss) : ℚ := max 1 (b.max_health : ℚ)

/-- The ratio `ratio = self.health / max(1, self.max_health)` (line 129). -/
def healthFrac (b : Boss) : ℚ := (b.health : ℚ) / bossDiv b

/-- The phase selected from the ratio (lines 131-147). -/
def bossPhase (r : ℚ) : ℤ := if 0.66 < r then 1 else if 0.33 < r then 2 else 3

/-- The shoot interval selected from the ratio (lines 131-147). -/
def bossInterval (r : ℚ) : ℚ := if 0.66 < r then 1.2 else if 0.33 < r then 0.9 else 0.5

/-- The projectile speed factor selected from the ratio (lines 131-147). -/
def bossShotSpeed (r : ℚ) : ℚ := if 0.66 < r then 5 else if 0.33 < r then 6 else 7

/-- The horizontal advance selected from the ratio (lines 131-147):
`move_speed` is 0.0 in phase 1, 0.8 in phase 2, 1.4 in phase 3. -/
def bossMove (r : ℚ) : ℚ := if 0.66 < r then 0 else if 0.33 < r then 0.8 else 1.4

/-- Embedding of `Boss.update_behavior` (lines 127-164).  `vyRand` is the draw
`random.uniform(0.8, 2.0)`; returns the updated boss and projectile list. -/
def updateBehavior (b : Boss) (dt px : ℚ) (projs : List Projectile)
    (vyRand : ℚ) : Boss × List Projectile :=
  let timer := b.shoot_timer + dt
  let r := healthFrac b
  let x1 := b.x - bossMove r
  let b1 : Boss := { b with phase := bossPhase r, x := x1, shoot_timer := timer }
  if bossInterval r ≤ timer then
    let dx := px - x1
    let dy := (200 : ℚ) - b.y
    let dist := max |dx| 1
    let vx := dx / dist * bossShotSpeed r * (1 + ((3 : ℚ) - (bossPhase r : ℚ)) * 0.2)
    let vy := dy / dist * vyRand
    let ps1 := projs ++ [⟨x1 - 30, b.y, vx, vy⟩]
    let ps2 := if bossPhase r = 3 then ps1 ++ [⟨x1 - 30, b.y + 50, vx, vy + 1⟩] else ps1
    ({ b1 with shoot_timer := 0 }, ps2)
  else (b1, projs)

/-- The computed phase of `update_behavior` in terms of the health ratio. -/
theorem updateBehavior_phase (b : Boss) (dt px vyR : ℚ) (ps : List Projectile) :
    (updateBehavior b dt px ps vyR).1.phase = bossPhase (healthFrac b) := by
  by_cases h : bossInterval (healthFrac b) ≤ b.shoot_timer + dt <;>
    simp [updateBehavior, h]

/-- Claim C10: the per-tick boss phase computation is total for every boss
state, including `maxHealth = 0`: the ratio divisor `max(1, maxHealth)` is
always positive (so the division in `update_behavior` never divides by
zero), and the computed phase is always one of 1, 2, 3. -/
theorem C10_phase_total (b : Boss) (dt px vyR : ℚ) (ps : List Projectile) :
    0 < bossDiv b ∧ bossDiv b ≠ 0 ∧
      ((updateBehavior b dt px ps vyR).1.phase = 1 ∨
       (updateBehavior b dt px ps vyR).1.phase = 2 ∨
       (updateBehavior b dt px ps vyR).1.phase = 3) := by
  refine ⟨lt_of_lt_of_le one_pos (le_max_left _ _), ?_, ?_⟩
  · exact ne_of_gt (lt_of_lt_of_le one_pos (le_max_left _ _))
  · rw [updateBehavior_phase]
    unfold bossPhase
    split <;> simp
    split <;> simp <;> rename_i h2
    · exact Or.inl h2
    · exact Or.inr (le_of_not_lt h2)

/-- Claim C3: the boss phase is a pure function of `health / maxHealth`:
phase 1 iff the ratio exceeds 0.66, phase 2 iff it lies in (0.33, 0.66],
phase 3 iff it is at most 0.33; in particular ratio 0.67 gives phase 1,
0.5 gives phase 2 and 0.2 gives phase 3, for any positive maxHealth. -/
theorem C3_phase_pure (b : Boss) (dt px vyR : ℚ) (ps : List Projectile)
    (hm : 1 ≤ b.max_health) :
    ((updateBehavior b dt px ps vyR).1.phase = 1 ↔
        0.66 < (b.health : ℚ) / (b.max_health : ℚ)) ∧
    ((updateBehavior b dt px ps vyR).1.phase = 2 ↔
        (0.33 < (b.health : ℚ) / (b.max_health : ℚ) ∧
         (b.health : ℚ) / (b.max_health : ℚ) ≤ 0.66)) ∧
    ((updateBehavior b dt px ps vyR).1.phase = 3 ↔
        (b.health : ℚ) / (b.max_health : ℚ) ≤ 0.33) ∧
    ((b.health : ℚ) / (b.max_health : ℚ) = 0.67 →
        (updateBehavior b dt px ps vyR).1.phase = 1) ∧
    ((b.health : ℚ) / (b.max_health : ℚ) = 0.5 →
        (updateBehavior b dt px ps vyR).1.phase = 2) ∧
    ((b.health : ℚ) / (b.max_health : ℚ) = 0.2 →
        (updateBehavior b dt px ps vyR).1.phase = 3) := by
  have hm' : (1 : ℚ) ≤ (b.max_health : ℚ) := by exact_mod_cast hm
  have hfrac : healthFrac b = (b.health : ℚ) / (b.max_health : ℚ) := by
    unfold healthFrac bossDiv
    rw [max_eq_right hm']
  rw [updateBehavior_phase, hfrac]
  unfold bossPhase
  constructor
  · split <;> rename_i h
    · simpa using h
    · split <;> rename_i h2 <;> simp_all
  constructor
  · split <;> rename_i h
    · constructor
      · simp
      · rintro ⟨-, h2⟩; linarith
    · split <;> rename_i h2 <;> simp_all
  constructor
  · split <;> rename_i h
    · constructor
      · simp
      · intro h2; linarith
    · split <;> rename_i h2 <;> simp_all
  refine ⟨?_, ?_, ?_⟩ <;> intro hr <;> rw [hr] <;> norm_num

/-- A concrete boss with health 67 of 100, used to witness C3. -/
def bossAt67 : Boss :=
  { health := 67, max_health := 100, shoot_timer := 0, phase := 1, x := 1100, y := 220 }

/-- Witness for C3 at a boss with health 67 / 100. -/
theorem C3_phase_pure_witness :
    (1 : ℤ) ≤ bossAt67.max_health ∧
    ((updateBehavior bossAt67 0 0 [] 1).1.phase = 1 ↔
        0.66 < (bossAt67.health : ℚ) / (bossAt67.max_health : ℚ)) :=
  ⟨by decide, (C3_phase_pure bossAt67 0 0 1 [] (by decide)).1⟩

/-- The gameplay state held by `GameView` (`__init__`, lines 204-260).
Obstacles are their world x-positions, coins their (x, y) positions;
damage popups are `(x, y, value, time_left)` tuples as in the source. -/
structure GameState where
  player_x : ℚ
  player_y : ℚ
  obstacles : List ℚ
  coins : List (ℚ × ℚ)
  projectiles : List Projectile
  explosions : List Emitter
  boss : Option Boss
  boss_active : Bool
  distance : ℚ
  next_boss_at : ℚ
  speed : ℚ
  score : ℚ
  player_health : ℤ
  player_max_health : ℤ
  damage_popups : List (ℚ × ℚ × ℤ × ℚ)
  skill_cd : ℚ
  obstacle_timer : ℚ
  coin_timer : ℚ
  game_over : Bool
  result_text : String
deriving DecidableEq, Repr

/-- The state built by `GameView.__init__`: no boss, distance 0, first boss
threshold `DISTANCE_FOR_BOSS = 2000`, speed `BASE_SPEED = 180`,
health 100 / 100.  The player sprite is positioned by `setup`. -/
def initState : GameState :=
  { player_x := 0, player_y := 0, obstacles := [], coins := [], projectiles := [],
    explosions := [], boss := none, boss_active := false,
    distance := 0, next_boss_at := 2000, speed := 180, score := 0,
    player_health := 100, player_max_health := 100, damage_popups := [],
    skill_cd := 0, obstacle_timer := 0, coin_timer := 0,
    game_over := false, result_text := "" }

/-- Embedding of `spawn_obstacle` (lines 299-304): one obstacle at
`int(player.x + off)` where `off` is the draw `random.randint(600, 3000)`. -/
def spawnObstacle (s : GameState) (off : ℤ) : GameState :=
  { s with obstacles := s.obstacles ++ [((pyInt (s.player_x + off) : ℤ) : ℚ)] }

/-- Embedding of `spawn_coin` (lines 306-311): one coin at `int(player.x + off)` with
vertical position `y`, the draws `randint(500, 2600)` / `randint(240, 320)`. -/
def spawnCoin (s : GameState) (off y : ℤ) : GameState :=
  { s with coins := s.coins ++ [(((pyInt (s.player_x + off) : ℤ) : ℚ), (y : ℚ))] }

/-- Embedding of `GameView.setup` (lines 262-296): place the player at (200, 200), spawn
six obstacles and five coins, and reset projectiles and explosions. -/
def setupStep (s : GameState) (obsOffs : List ℤ) (coinOffs : List (ℤ × ℤ)) :
    GameState :=
  let s1 := { s with player_x := 200, player_y := 200 }
  let s2 := obsOffs.foldl (fun st o => spawnObstacle st o) s1
  let s3 := coinOffs.foldl (fun st o => spawnCoin st o.1 o.2) s2
  { s3 with projectiles := [], explosions := [] }

/-- The `Projectile.update` movement (lines 107-109). -/
def projectileMove (p : Projectile) : Projectile :=
  { p with x := p.x + p.vx, y := p.y + p.vy }

/-- The `Projectile.update` bounds check (lines 110-112): a projectile dies when
it leaves the generous bounding region. -/
def projectileAlive (p : Projectile) : Bool :=
  !(decide (p.x < -1000) || decide (10000 < p.x) ||
    decide (p.y < -1000) || decide (3000 < p.y))

/-- Embedding of `self.projectiles.update()` (line 462): move every projectile, then
drop the ones that flew out of bounds. -/
def projectilesUpdate (ps : List Projectile) : List Projectile :=
  (ps.map projectileMove).filter projectileAlive

/-- The per-tick environment: elapsed time, every random draw and every
collision-detection result consumed by `on_update`. -/
structure TickEnv where
  dt : ℚ
  obsSpawnOff : ℤ
  coinSpawnOff : ℤ
  coinSpawnY : ℤ
  coinHit : ℚ × ℚ → Bool
  obsHit : ℚ → Bool
  projHit : Projectile → Bool
  bossHit : Bool
  projDmg : ℕ → ℤ
  vyRand : ℚ
  explosion : List ℚ

/-- Skill-cooldown decay (lines 407-408). -/
def cooldownStep (s : GameState) (dt : ℚ) : GameState :=
  if 0 < s.skill_cd then { s with skill_cd := max 0 (s.skill_cd - dt) } else s

/-- Movement and distance scoring (lines 410-415): `dx = speed * dt`,
`player.x += dx`, `distance += dx * 0.6`, `score += dx * 0.05`. -/
def moveStep (s : GameState) (dt : ℚ) : GameState :=
  { s with player_x := s.player_x + s.speed * dt,
           distance := s.distance + s.speed * dt * 0.6,
           score := s.score + s.speed * dt * 0.05 }

/-- Gradual spawning (lines 421-429): each timer accumulates `dt` and fires
when it exceeds its distance-dependent cadence, then resets to 0. -/
def spawnStep (s : GameState) (e : TickEnv) : GameState :=
  let s1 := { s with obstacle_timer := s.obstacle_timer + e.dt,
                     coin_timer := s.coin_timer + e.dt }
  let s2 := if max 0.6 (2.4 - s1.distance / 8000) < s1.obstacle_timer
            then { spawnObstacle s1 e.obsSpawnOff with obstacle_timer := 0 }
            else s1
  if max 0.8 (2.3 - s2.distance / 9000) < s2.coin_timer
  then { spawnCoin s2 e.coinSpawnOff e.coinSpawnY with coin_timer := 0 }
  else s2

/-- Cleanup behind the player (lines 431-437): obstacles and coins more than
900 units behind the player are removed. -/
def reapStep (s : GameState) : GameState :=
  { s with obstacles := s.obstacles.filter (fun o => !decide (o < s.player_x - 900)),
           coins := s.coins.filter (fun c => !decide (c.1 < s.player_x - 900)) }

/-- Coin pickups (lines 439-443): every colliding coin is removed and each
one adds 25 to the score. -/
def coinStep (s : GameState) (e : TickEnv) : GameState :=
  let hit := s.coins.filter e.coinHit
  { s with coins := s.coins.filter (fun c => !(e.coinHit c)),
           score := hit.foldl (fun sc _ => sc + 25) s.score }

/-- One obstacle impact (lines 449-450): `score = max(0, score - 40)` and
`player.x = max(200, player.x - 140)`. -/
def knockback (st : GameState) : GameState :=
  { st with score := max 0 (st.score - 40),
            player_x := max 200 (st.player_x - 140) }

/-- Obstacle impacts (lines 445-450): every colliding obstacle is removed;
for each one the score drops by 40 floored at 0 and the player is knocked
back to `max(200, player.x - 140)`. -/
def obstacleStep (s : GameState) (e : TickEnv) : GameState :=
  let hit := s.obstacles.filter e.obsHit
  let s1 := { s with obstacles := s.obstacles.filter (fun o => !(e.obsHit o)) }
  hit.foldl (fun st _ => knockback st) s1

/-- Boss spawning (`spawn_boss`, lines 313-323, invoked at lines 452-456):
when no boss is active and the distance has crossed the threshold, a boss
with health `80 + int(distance/500) * 10` appears 900 units ahead, the
projectile list is reset and the threshold grows by
`2000 * (1 + distance / 8000)`. -/
def bossSpawnStep (s : GameState) : GameState :=
  if s.boss_active = false ∧ s.next_boss_at ≤ s.distance then
    let maxh : ℤ := 80 + pyInt (s.distance / 500) * 10
    { s with boss := some { health := maxh, max_health := maxh, shoot_timer := 0,
                            phase := 1, x := s.player_x + 900, y := 220 },
             boss_active := true,
             projectiles := [],
             next_boss_at := s.next_boss_at + 2000 * (1 + s.distance / 8000) }
  else s

/-- Embedding of `lose_game` (lines 504-513): mark the run as over.  Writing the score to
the leaderboard file is the persistence collaborator's side effect. -/
def loseGame (s : GameState) : GameState :=
  { s with game_over := true, result_text := "YOU DIED" }

/-- Embedding of `win_boss` (lines 496-502): spawn a cosmetic explosion at the boss, add
700 to the score and clear the active boss.  `ex` is the particle-lifetime
draw of `create_explosion`. -/
def winBoss (s : GameState) (ex : List ℚ) : GameState :=
  match s.boss with
  | some b =>
      { s with explosions := s.explosions ++ [{ x := b.x, y := b.y, particles := ex }],
               score := s.score + 700, boss_active := false, boss := none }
  | none => s

/-- Projectile impacts on the player (lines 463-473), one list entry per
colliding projectile: subtract a random damage, queue a popup, and on
reaching 0 clamp health to 0 and lose the run.  `dmg i` is the i-th draw of
`random.randint(8, 18)`. -/
def applyProjHits : GameState → List Projectile → (ℕ → ℤ) → ℕ → GameState
  | s, [], _, _ => s
  | s, _ :: ps, dmg, i =>
    let d := dmg i
    let s1 := { s with player_health := s.player_health - d,
                       damage_popups := s.damage_popups ++
                         [(s.player_x, s.player_y + 80, d, 1)] }
    let s2 := if s1.player_health ≤ 0
              then loseGame { s1 with player_health := 0 }
              else s1
    applyProjHits s2 ps dmg (i + 1)

/-- Boss body contact (lines 474-484): the player takes
`18 + int(distance/1000)` and the boss takes a fixed 40; a popup is queued;
player death and boss death are then checked in that order.  Note that here
the player's health is NOT clamped to 0. -/
def bossContact (s : GameState) (ex : List ℚ) : GameState :=
  match s.boss with
  | none => s
  | some b =>
      let d : ℤ := 18 + pyInt (s.distance / 1000)
      let b' : Boss := { b with health := b.health - 40 }
      let s1 := { s with player_health := s.player_health - d, boss := some b',
                         damage_popups := s.damage_popups ++
                           [(s.player_x, s.player_y + 80, d, 1)] }
      let s2 := if s1.player_health ≤ 0 then loseGame s1 else s1
      if b'.health ≤ 0 then winBoss s2 ex else s2

/-- The trailing boss-HP check (lines 489-491). -/
def finalBossCheck (s : GameState) (ex : List ℚ) : GameState :=
  match s.boss with
  | some b => if b.health ≤ 0 then winBoss s ex else s
  | none => s

/-- The whole boss section of `on_update` (lines 458-491). -/
def bossStep (s : GameState) (e : TickEnv) : GameState :=
  if s.boss_active then
    match s.boss with
    | none => s
    | some b =>
        let bp := updateBehavior b e.dt s.player_x s.projectiles e.vyRand
        let ps := projectilesUpdate bp.2
        let s1 := { s with boss := some bp.1,
                           projectiles := ps.filter (fun p => !(e.projHit p)) }
        let s2 := applyProjHits s1 (ps.filter e.projHit) e.projDmg 0
        let s3 := if e.bossHit then bossContact s2 e.explosion else s2
        finalBossCheck s3 e.explosion
  else s

/-- Damage-popup decay (line 494): every popup loses `dt` of lifetime and
expired popups are dropped. -/
def popupStep (s : GameState) (dt : ℚ) : GameState :=
  let popups := s.damage_popups.filterMap (fun p =>
    if 0 < p.2.2.2 - dt then some (p.1, p.2.1, p.2.2.1, p.2.2.2 - dt) else none)
  { s with damage_popups := popups }

/-- Embedding of `GameView.on_update` (lines 391-494).  When the run is over only the
explosion emitters are updated; otherwise the gameplay phases run in source
order. -/
def tick (s : GameState) (e : TickEnv) : GameState :=
  if s.game_over then { s with explosions := s.explosions.map emitterUpdate }
  else
    let s1 := { s with explosions := s.explosions.map emitterUpdate }
    let s2 := cooldownStep s1 e.dt
    let s3 := moveStep s2 e.dt
    let s4 := spawnStep s3 e
    let s5 := reapStep s4
    let s6 := coinStep s5 e
    let s7 := obstacleStep s6 e
    let s8 := bossSpawnStep s7
    let s9 := bossStep s8 e
    popupStep s9 e.dt

/-- The discrete input commands of `on_key_press`. -/
inductive Key where
  | space
  | z
  | x
  | r
  | escape
deriving DecidableEq, Repr

/-- The random draws consumed by `on_key_press`: the melee damage
`random.randint(8, 16)` and the explosion particles of a boss kill. -/
structure KeyEnv where
  meleeDmg : ℤ
  explosion : List ℚ

/-- Skill area denial (lines 556-563): remove every obstacle whose
horizontal distance to the player is under 220. -/
def clearNearObstacles (s : GameState) : GameState :=
  { s with obstacles :=
      s.obstacles.filter (fun o => !decide (|o - s.player_x| < 220)) }

/-- Embedding of `GameView.on_key_press` (lines 516-563).  Escape switches views and a
restart builds a fresh view, so neither mutates this state; in a terminal
state every gameplay command is ignored. -/
def keyPress (s : GameState) (k : Key) (e : KeyEnv) : GameState :=
  if s.game_over then s
  else
    match k with
    | .space => { s with player_y := s.player_y + 90 }
    | .z =>
        if s.boss_active then
          match s.boss with
          | some b =>
              if |b.x - s.player_x| < 140 then
                let b' : Boss := { b with health := b.health - e.meleeDmg }
                let s1 := { s with boss := some b',
                                   damage_popups := s.damage_popups ++
                                     [(b.x, b.y + 100, e.meleeDmg, 0.9)] }
                if b'.health ≤ 0 then winBoss s1 e.explosion else s1
              else s
          | none => s
        else s
    | .x =>
        if s.skill_cd ≤ 0 then
          let s1 := { s with skill_cd := 3 }
          let d : ℤ := 40 + pyInt (s1.distance / 1000)
          if s1.boss_active then
            match s1.boss with
            | some b =>
                let b' : Boss := { b with health := b.health - d }
                let s2 := { s1 with boss := some b',
                                    damage_popups := s1.damage_popups ++
                                      [(b.x, b.y + 100, d, 1.2)] }
                if b'.health ≤ 0 then winBoss s2 e.explosion else s2
            | none => clearNearObstacles s1
          else clearNearObstacles s1
        else s
    | .r => s
    | .escape => s

/-- A tick environment in which nothing collides and nothing random
matters: zero elapsed time, minimal draws. -/
def noHitEnv : TickEnv :=
  { dt := 0, obsSpawnOff := 600, coinSpawnOff := 500, coinSpawnY := 240,
    coinHit := fun _ => false, obsHit := fun _ => false, projHit := fun _ => false,
    bossHit := false, projDmg := fun _ => 8, vyRand := 1, explosion := [] }

/-- A concrete key environment. -/
def trivKeyEnv : KeyEnv := { meleeDmg := 10, explosion := [] }

/-- Counterexample to claim C4: with `dt = -1` the distance-clock update is
not a no-op — the player is moved backwards by `speed * |dt| = 180`, and
distance and score also change. -/
theorem C4_cex :
    (moveStep initState (-1)).player_x = -180 ∧
    (moveStep initState (-1)).player_x ≠ initState.player_x ∧
    (moveStep initState (-1)).distance ≠ initState.distance ∧
    (moveStep initState (-1)).score ≠ initState.score := by
  norm_num [moveStep, initState]

/-- Claim C4 (amended): for every `dt` — positive or not — the
distance-clock update advances player x by exactly `speed * dt`, distance
by exactly `0.6 * (speed * dt)` and score by exactly `0.05 * (speed * dt)`;
`dt = 0` is a no-op, but a negative `dt` is not (it moves everything
backwards by the same formulas). -/
theorem C4_move_exact :
    (∀ (s : GameState) (dt : ℚ),
        (moveStep s dt).player_x = s.player_x + s.speed * dt ∧
        (moveStep s dt).distance = s.distance + 0.6 * (s.speed * dt) ∧
        (moveStep s dt).score = s.score + 0.05 * (s.speed * dt)) ∧
    (∀ s : GameState, moveStep s 0 = s) := by
  constructor
  · intro s dt
    refine ⟨rfl, ?_, ?_⟩ <;> simp only [moveStep] <;> ring
  · intro s
    simp [moveStep]

/-- Claim C5: at a boss spawn the next-boss threshold becomes exactly
`old + 2000 * (1 + distance / 8000)`, which is strictly larger than the old
threshold whenever the distance is non-negative. -/
theorem C5_threshold_increasing (s : GameState) (h1 : s.boss_active = false)
    (h2 : s.next_boss_at ≤ s.distance) (h3 : 0 ≤ s.distance) :
    (bossSpawnStep s).next_boss_at =
      s.next_boss_at + 2000 * (1 + s.distance / 8000) ∧
    s.next_boss_at < (bossSpawnStep s).next_boss_at := by
  rw [bossSpawnStep, if_pos ⟨h1, h2⟩]
  refine ⟨rfl, ?_⟩
  have h4 : (0 : ℚ) ≤ s.distance / 8000 := by positivity
  show s.next_boss_at < s.next_boss_at + 2000 * (1 + s.distance / 8000)
  nlinarith

/-- A state that has crossed the first boss threshold. -/
def stateC5 : GameState := { initState with distance := 2500 }

/-- Witness for C5 at distance 2500 against the initial threshold 2000. -/
theorem C5_threshold_increasing_witness :
    stateC5.boss_active = false ∧ stateC5.next_boss_at ≤ stateC5.distance ∧
    (0 : ℚ) ≤ stateC5.distance ∧
    (bossSpawnStep stateC5).next_boss_at =
      stateC5.next_boss_at + 2000 * (1 + stateC5.distance / 8000) ∧
    stateC5.next_boss_at < (bossSpawnStep stateC5).next_boss_at :=
  ⟨rfl, by decide, by decide,
   (C5_threshold_increasing stateC5 rfl (by decide) (by decide)).1,
   (C5_threshold_increasing stateC5 rfl (by decide) (by decide)).2⟩

/-- A terminal (game-over) state whose skill is off cooldown. -/
def cexStateC6 : GameState := { initState with game_over := true }

/-- Counterexample to claim C6: in a game-over state with
`skillCooldown = 0 ≤ 0`, issuing Skill does not reset the cooldown to 3.0 —
the command is ignored entirely. -/
theorem C6_cex :
    cexStateC6.skill_cd ≤ 0 ∧
    keyPress cexStateC6 Key.x trivKeyEnv = cexStateC6 ∧
    (keyPress cexStateC6 Key.x trivKeyEnv).skill_cd ≠ 3 := by decide

/-- Helper: `win_boss` leaves the skill cooldown untouched. -/
theorem winBoss_skill_cd (s : GameState) (ex : List ℚ) :
    (winBoss s ex).skill_cd = s.skill_cd := by
  unfold winBoss
  cases s.boss <;> rfl

/-- Claim C6 (amended): with `skillCooldown > 0` the Skill command changes
no state at all; with `skillCooldown ≤ 0` it resets the cooldown to exactly
3.0 seconds provided the run is not in the terminal state; in the terminal
state the command is ignored (no state change). -/
theorem C6_skill_gate :
    (∀ (s : GameState) (e : KeyEnv), 0 < s.skill_cd →
        keyPress s Key.x e = s) ∧
    (∀ (s : GameState) (e : KeyEnv), s.game_over = false → s.skill_cd ≤ 0 →
        (keyPress s Key.x e).skill_cd = 3) ∧
    (∀ (s : GameState) (e : KeyEnv), s.game_over = true →
        keyPress s Key.x e = s) := by
  refine ⟨?_, ?_, ?_⟩
  · intro s e h
    cases hg : s.game_over <;> simp [keyPress, hg, not_le.mpr h]
  · intro s e hg hc
    cases hb : s.boss_active <;> cases hob : s.boss <;>
      (first
        | (simp [keyPress, hg, hc, hb, hob, clearNearObstacles];
           split <;> simp [winBoss_skill_cd])
        | simp [keyPress, hg, hc, hb, hob, clearNearObstacles])
  · intro s e hg
    simp [keyPress, hg]

/-- A live state whose skill is still cooling down. -/
def stateCd2 : GameState := { initState with skill_cd := 2 }

/-- Witness for the amended C6 at concrete states. -/
theorem C6_skill_gate_witness :
    (0 : ℚ) < stateCd2.skill_cd ∧ keyPress stateCd2 Key.x trivKeyEnv = stateCd2 ∧
    initState.game_over = false ∧ initState.skill_cd ≤ 0 ∧
    (keyPress initState Key.x trivKeyEnv).skill_cd = 3 ∧
    cexStateC6.game_over = true ∧
    keyPress cexStateC6 Key.x trivKeyEnv = cexStateC6 :=
  ⟨by decide, C6_skill_gate.1 stateCd2 trivKeyEnv (by decide), rfl, by decide,
   C6_skill_gate.2.1 initState trivKeyEnv rfl (by decide), rfl,
   C6_skill_gate.2.2 cexStateC6 trivKeyEnv rfl⟩

/-- A terminal state with no boss, skill off cooldown, and one obstacle 100
units from the player. -/
def cexStateC7 : GameState :=
  { initState with game_over := true, player_x := 200, obstacles := [100] }

/-- Counterexample to claim C7: in a game-over state with no active boss and
the skill off cooldown, issuing Skill removes nothing — the obstacle 100
units away (well within 220) survives, because input is ignored once the run
is over. -/
theorem C7_cex :
    cexStateC7.boss = none ∧ cexStateC7.skill_cd ≤ 0 ∧
    |(100 : ℚ) - cexStateC7.player_x| < 220 ∧
    (keyPress cexStateC7 Key.x trivKeyEnv).obstacles = [100] :=
  ⟨rfl, by decide, by norm_num [cexStateC7, initState], rfl⟩

/-- Claim C7 (amended): with no active boss, the run live and the skill off cooldown,
issuing Skill removes exactly the obstacles whose horizontal distance to
the player is under 220 units, keeps every obstacle at or beyond that
range, and leaves coins, projectiles, health and score unchanged. -/
theorem C7_skill_area (s : GameState) (e : KeyEnv) (hg : s.game_over = false)
    (hb : s.boss = none) (hc : s.skill_cd ≤ 0) :
    (keyPress s Key.x e).obstacles =
      s.obstacles.filter (fun o => !decide (|o - s.player_x| < 220)) ∧
    (∀ o ∈ s.obstacles, |o - s.player_x| < 220 →
        o ∉ (keyPress s Key.x e).obstacles) ∧
    (∀ o ∈ s.obstacles, 220 ≤ |o - s.player_x| →
        o ∈ (keyPress s Key.x e).obstacles) ∧
    (keyPress s Key.x e).coins = s.coins ∧
    (keyPress s Key.x e).projectiles = s.projectiles ∧
    (keyPress s Key.x e).player_health = s.player_health ∧
    (keyPress s Key.x e).score = s.score := by
  have key : keyPress s Key.x e = clearNearObstacles { s with skill_cd := 3 } := by
    cases hb' : s.boss_active <;> (simp [keyPress, hg, hc, hb]; rw [hb'])
  rw [key]
  refine ⟨rfl, ?_, ?_, rfl, rfl, rfl, rfl⟩
  · intro o ho hlt
    simp [clearNearObstacles, List.mem_filter, hlt]
  · intro o ho hge
    simp [clearNearObstacles, List.mem_filter, not_lt.mpr hge, ho]

/-- A live state with one obstacle inside skill range and one beyond it. -/
def stateC7 : GameState := { initState with player_x := 200, obstacles := [100, 600] }

/-- Witness for C7: the obstacle 100 units away is removed, the one 400
units away survives, score untouched. -/
theorem C7_skill_area_witness :
    stateC7.game_over = false ∧ stateC7.boss = none ∧ stateC7.skill_cd ≤ 0 ∧
    (keyPress stateC7 Key.x trivKeyEnv).obstacles =
      stateC7.obstacles.filter (fun o => !decide (|o - stateC7.player_x| < 220)) ∧
    (keyPress stateC7 Key.x trivKeyEnv).obstacles = [600] ∧
    (keyPress stateC7 Key.x trivKeyEnv).score = stateC7.score :=
  ⟨rfl, rfl, by decide,
   (C7_skill_area stateC7 trivKeyEnv rfl rfl (by decide)).1,
   by norm_num [keyPress, stateC7, initState, trivKeyEnv, clearNearObstacles],
   (C7_skill_area stateC7 trivKeyEnv rfl rfl (by decide)).2.2.2.2.2.2⟩

/-- If every particle has at most `k / 60` lifetime left, the emitter is
fully drained after finitely many update steps. -/
theorem emitter_drain_aux :
    ∀ (k : ℕ) (em : Emitter), (∀ t ∈ em.particles, t ≤ (k : ℚ) / 60) →
      ∃ n : ℕ, (emitterUpdate^[n] em).particles = []
  | 0, em, h => by
    refine ⟨1, ?_⟩
    rw [Function.iterate_one]
    unfold emitterUpdate
    simp only [List.filter_eq_nil_iff, List.mem_map]
    rintro t ⟨t0, ht0, rfl⟩
    have := h t0 ht0
    simp only [decide_eq_true_eq, not_lt]
    norm_num at this ⊢
    linarith
  | k + 1, em, h => by
    have h' : ∀ t ∈ (emitterUpdate em).particles, t ≤ (k : ℚ) / 60 := by
      unfold emitterUpdate
      simp only [List.mem_filter, List.mem_map]
      rintro t ⟨⟨t0, ht0, rfl⟩, -⟩
      have := h t0 ht0
      push_cast at this ⊢
      linarith
    obtain ⟨n, hn⟩ := emitter_drain_aux k (emitterUpdate em) h'
    exact ⟨n + 1, by rw [Function.iterate_succ_apply]; exact hn⟩

/-- Every finite list of rational lifetimes is bounded by some `k / 60`. -/
theorem exists_lifetime_bound (l : List ℚ) : ∃ k : ℕ, ∀ t ∈ l, t ≤ (k : ℚ) / 60 := by
  induction l with
  | nil => exact ⟨0, by simp⟩
  | cons t l ih =>
    obtain ⟨k, hk⟩ := ih
    obtain ⟨m, hm⟩ := exists_nat_ge (60 * t)
    refine ⟨max k m, ?_⟩
    intro x hx
    have hcast : ((max k m : ℕ) : ℚ) = max (k : ℚ) (m : ℚ) := by push_cast; rfl
    rcases List.mem_cons.mp hx with rfl | hx'
    · rw [hcast]
      have : x ≤ (m : ℚ) / 60 := by linarith
      have hle : (m : ℚ) / 60 ≤ max (k : ℚ) (m : ℚ) / 60 := by
        have := le_max_right (k : ℚ) (m : ℚ)
        linarith
      linarith
    · rw [hcast]
      have hx2 := hk x hx'
      have hle : (k : ℚ) / 60 ≤ max (k : ℚ) (m : ℚ) / 60 := by
        have := le_max_left (k : ℚ) (m : ℚ)
        linarith
      linarith

/-- Every explosion emitter is drained to completion: after finitely many
update steps it has no particles left. -/
theorem emitter_drains (em : Emitter) :
    ∃ n : ℕ, (emitterUpdate^[n] em).particles = [] := by
  obtain ⟨k, hk⟩ := exists_lifetime_bound em.particles
  exact emitter_drain_aux k em hk

/-- A terminal state with one live damage popup. -/
def cexStateC2 : GameState :=
  { initState with game_over := true, damage_popups := [(0, 0, 5, 1 / 2)] }

/-- A no-collision tick environment with a positive elapsed time. -/
def dtEnv : TickEnv := { noHitEnv with dt := 1 / 10 }

/-- Counterexample to claim C2: after the terminal state is reached, damage
popups are NOT drained — a tick with dt = 1/10 leaves the popup's remaining
lifetime at 1/2 instead of decreasing it, because `on_update` returns before
reaching the popup-decay line once `game_over` is set. -/
theorem C2_cex :
    cexStateC2.game_over = true ∧ 0 < dtEnv.dt ∧
    cexStateC2.damage_popups = [(0, 0, 5, 1 / 2)] ∧
    (tick cexStateC2 dtEnv).damage_popups = cexStateC2.damage_popups ∧
    (1 : ℚ) / 2 - dtEnv.dt ≠ 1 / 2 :=
  ⟨rfl, by norm_num [dtEnv, noHitEnv], rfl, rfl, by norm_num [dtEnv, noHitEnv]⟩

/-- Claim C2 (amended): once the terminal state is reached, every subsequent
tick leaves all gameplay state unchanged — the only activity is that
explosion emitters take one decay step per tick (and are thereby drained to
completion); damage popups are frozen, not drained. -/
theorem C2_terminal_freeze (s : GameState) (e : TickEnv)
    (h : s.game_over = true) :
    tick s e = { s with explosions := s.explosions.map emitterUpdate } ∧
    ∀ em ∈ s.explosions, ∃ n : ℕ, (emitterUpdate^[n] em).particles = [] := by
  constructor
  · simp [tick, h]
  · intro em _
    exact emitter_drains em

/-- Witness for the amended C2 at a concrete terminal state. -/
theorem C2_terminal_freeze_witness :
    cexStateC2.game_over = true ∧
    tick cexStateC2 noHitEnv =
      { cexStateC2 with explosions := cexStateC2.explosions.map emitterUpdate } ∧
    ∀ em ∈ cexStateC2.explosions, ∃ n : ℕ, (emitterUpdate^[n] em).particles = [] :=
  ⟨rfl, (C2_terminal_freeze cexStateC2 noHitEnv rfl).1,
   (C2_terminal_freeze cexStateC2 noHitEnv rfl).2⟩

/-- The comparison used by `save_score` (line 57):
`sorted(data, key=lambda x: x["score"], reverse=True)` orders `a` before
`b` exactly when `b`'s score is at most `a`'s. -/
def scoreLE (a b : String × ℤ) : Bool := decide (b.2 ≤ a.2)

/-- Embedding of `save_score` (lines 49-59): append the new `{name, score}` entry to the
prior leaderboard contents, stable-sort by score descending (Python's
`sorted` is stable, so equal scores keep insertion order), keep the top 10.
File reading/writing is the persistence collaborator. -/
def save_score (data : List (String × ℤ)) (name : String) (sc : ℤ) :
    List (String × ℤ) :=
  ((data ++ [(name, sc)]).mergeSort scoreLE).take 10

/-- The comparison `scoreLE` is transitive. -/
theorem scoreLE_trans (a b c : String × ℤ) :
    scoreLE a b → scoreLE b c → scoreLE a c := by
  simp only [scoreLE, decide_eq_true_eq]
  omega

/-- The comparison `scoreLE` is total. -/
theorem scoreLE_total (a b : String × ℤ) : scoreLE a b || scoreLE b a := by
  simp only [scoreLE, Bool.or_eq_true, decide_eq_true_eq]
  omega

/-- Claim C8: for every prior leaderboard contents and every saved entry,
the stored list is the first 10 entries of a stable descending sort of the
combined list: it is a permutation-sorted prefix (so it holds the 10
highest scores), it is sorted descending by score, it has
`min 10 (length)` entries, and entries with equal scores appear in
insertion order (the sort does not reorder them). -/
theorem C8_save_score (data : List (String × ℤ)) (name : String) (sc : ℤ) :
    ((data ++ [(name, sc)]).mergeSort scoreLE).Perm (data ++ [(name, sc)]) ∧
    save_score data name sc = ((data ++ [(name, sc)]).mergeSort scoreLE).take 10 ∧
    List.Pairwise (fun a b : String × ℤ => b.2 ≤ a.2)
      ((data ++ [(name, sc)]).mergeSort scoreLE) ∧
    (save_score data name sc).Sublist ((data ++ [(name, sc)]).mergeSort scoreLE) ∧
    (save_score data name sc).length = min 10 (data ++ [(name, sc)]).length ∧
    ∀ v : ℤ,
      ((data ++ [(name, sc)]).mergeSort scoreLE).filter (fun x => decide (x.2 = v)) =
        (data ++ [(name, sc)]).filter (fun x => decide (x.2 = v)) := by
  refine ⟨List.mergeSort_perm _ _, rfl, ?_, ?_, ?_, ?_⟩
  · have h := List.sorted_mergeSort scoreLE_trans scoreLE_total
      (data ++ [(name, sc)])
    exact h.imp (fun hab => by simpa [scoreLE] using hab)
  · exact List.take_sublist _ _
  · simp [save_score]
  · intro v
    set l := data ++ [(name, sc)] with hl
    have hpair : (l.filter (fun x => decide (x.2 = v))).Pairwise
        (fun a b => scoreLE a b = true) := by
      apply List.pairwise_of_forall_mem_list
      intro a ha b hb
      have ha' := (List.mem_filter.mp ha).2
      have hb' := (List.mem_filter.mp hb).2
      simp only [decide_eq_true_eq] at ha' hb'
      simp [scoreLE, ha', hb']
    have hsub : (l.filter (fun x => decide (x.2 = v))).Sublist
        (l.mergeSort scoreLE) :=
      List.sublist_mergeSort scoreLE_trans scoreLE_total hpair
        (List.filter_sublist l)
    have hsub2 : (l.filter (fun x => decide (x.2 = v))).Sublist
        ((l.mergeSort scoreLE).filter (fun x => decide (x.2 = v))) := by
      have := hsub.filter (fun x => decide (x.2 = v))
      simpa using this
    have hperm : ((l.mergeSort scoreLE).filter (fun x => decide (x.2 = v))).Perm
        (l.filter (fun x => decide (x.2 = v))) :=
      (List.mergeSort_perm l scoreLE).filter _
    exact (hsub2.eq_of_length hperm.length_eq.symm).symm

/-- The coupling checked by claim C9: `boss_active` is set exactly when the
`boss` field holds a boss object. -/
def BossInvariant (s : GameState) : Prop := s.boss_active = s.boss.isSome

/-- Transport of the invariant along a step that touches neither field. -/
theorem inv_of_fields {s t : GameState} (h : BossInvariant s)
    (h1 : t.boss = s.boss) (h2 : t.boss_active = s.boss_active) :
    BossInvariant t := by
  unfold BossInvariant at *
  rw [h1, h2, h]

/-- Spawning an obstacle touches neither boss field. -/
theorem foldl_spawnObstacle_boss (l : List ℤ) :
    ∀ s : GameState,
      (l.foldl (fun st o => spawnObstacle st o) s).boss = s.boss ∧
      (l.foldl (fun st o => spawnObstacle st o) s).boss_active = s.boss_active := by
  induction l with
  | nil => intro s; exact ⟨rfl, rfl⟩
  | cons a l ih =>
    intro s
    rw [List.foldl_cons]
    exact ⟨(ih (spawnObstacle s a)).1, (ih (spawnObstacle s a)).2⟩

/-- Spawning a coin touches neither boss field. -/
theorem foldl_spawnCoin_boss (l : List (ℤ × ℤ)) :
    ∀ s : GameState,
      (l.foldl (fun st o => spawnCoin st o.1 o.2) s).boss = s.boss ∧
      (l.foldl (fun st o => spawnCoin st o.1 o.2) s).boss_active = s.boss_active := by
  induction l with
  | nil => intro s; exact ⟨rfl, rfl⟩
  | cons a l ih =>
    intro s
    rw [List.foldl_cons]
    exact ⟨(ih (spawnCoin s a.1 a.2)).1, (ih (spawnCoin s a.1 a.2)).2⟩

/-- The `setup` step touches neither boss field. -/
theorem setupStep_boss (s : GameState) (a : List ℤ) (b : List (ℤ × ℤ)) :
    (setupStep s a b).boss = s.boss ∧
    (setupStep s a b).boss_active = s.boss_active := by
  unfold setupStep
  exact ⟨((foldl_spawnCoin_boss b _).1).trans ((foldl_spawnObstacle_boss a _).1),
         ((foldl_spawnCoin_boss b _).2).trans ((foldl_spawnObstacle_boss a _).2)⟩

/-- The cooldown step touches neither boss field. -/
theorem cooldownStep_boss (s : GameState) (dt : ℚ) :
    (cooldownStep s dt).boss = s.boss ∧
    (cooldownStep s dt).boss_active = s.boss_active := by
  unfold cooldownStep
  split <;> exact ⟨rfl, rfl⟩

/-- The spawn step touches neither boss field. -/
theorem spawnStep_boss (s : GameState) (e : TickEnv) :
    (spawnStep s e).boss = s.boss ∧
    (spawnStep s e).boss_active = s.boss_active := by
  unfold spawnStep
  dsimp only
  split <;> split <;> exact ⟨rfl, rfl⟩

/-- The obstacle-impact fold touches neither boss field. -/
theorem foldl_knockback_boss (l : List ℚ) :
    ∀ s : GameState,
      (l.foldl (fun st _ => knockback st) s).boss = s.boss ∧
      (l.foldl (fun st _ => knockback st) s).boss_active = s.boss_active := by
  induction l with
  | nil => intro s; exact ⟨rfl, rfl⟩
  | cons a l ih =>
    intro s
    rw [List.foldl_cons]
    exact ⟨(ih _).1, (ih _).2⟩

/-- The obstacle step touches neither boss field. -/
theorem obstacleStep_boss (s : GameState) (e : TickEnv) :
    (obstacleStep s e).boss = s.boss ∧
    (obstacleStep s e).boss_active = s.boss_active := by
  unfold obstacleStep
  exact ⟨(foldl_knockback_boss _ _).1, (foldl_knockback_boss _ _).2⟩

/-- After a boss spawn the invariant holds (both fields are set together). -/
theorem bossSpawnStep_inv (s : GameState) (h : BossInvariant s) :
    BossInvariant (bossSpawnStep s) := by
  unfold bossSpawnStep
  split
  · rfl
  · exact h

/-- Helper: `win_boss` preserves the invariant (it clears both fields together). -/
theorem winBoss_inv (s : GameState) (ex : List ℚ) (h : BossInvariant s) :
    BossInvariant (winBoss s ex) := by
  unfold winBoss
  cases hb : s.boss
  · exact h
  · rfl

/-- The projectile-hit fold touches neither boss field. -/
theorem applyProjHits_boss (l : List Projectile) :
    ∀ (s : GameState) (d : ℕ → ℤ) (i : ℕ),
      (applyProjHits s l d i).boss = s.boss ∧
      (applyProjHits s l d i).boss_active = s.boss_active := by
  induction l with
  | nil => intro s d i; exact ⟨rfl, rfl⟩
  | cons p ps ih =>
    intro s d i
    show (applyProjHits _ ps d (i + 1)).boss = _ ∧
      (applyProjHits _ ps d (i + 1)).boss_active = _
    constructor
    · rw [(ih _ d (i + 1)).1]
      unfold loseGame
      split <;> rfl
    · rw [(ih _ d (i + 1)).2]
      unfold loseGame
      split <;> rfl

/-- Boss body contact preserves the invariant. -/
theorem bossContact_inv (s : GameState) (ex : List ℚ) (h : BossInvariant s) :
    BossInvariant (bossContact s ex) := by
  have h2 : s.boss_active = s.boss.isSome := h
  unfold bossContact
  cases hb : s.boss with
  | none => exact h
  | some b =>
    have h3 : s.boss_active = true := by rw [h2, hb]; rfl
    dsimp only
    split
    · apply winBoss_inv
      show BossInvariant _
      unfold BossInvariant loseGame
      split <;> exact h3
    · unfold BossInvariant loseGame
      split <;> exact h3

/-- The trailing boss-HP check preserves the invariant. -/
theorem finalBossCheck_inv (s : GameState) (ex : List ℚ) (h : BossInvariant s) :
    BossInvariant (finalBossCheck s ex) := by
  unfold finalBossCheck
  cases hb : s.boss with
  | none => exact h
  | some b =>
    dsimp only
    split
    · exact winBoss_inv _ _ h
    · exact h

/-- The projectile-hit fold preserves the invariant. -/
theorem applyProjHits_inv (s : GameState) (l : List Projectile) (d : ℕ → ℤ)
    (i : ℕ) (h : BossInvariant s) : BossInvariant (applyProjHits s l d i) :=
  inv_of_fields h (applyProjHits_boss l s d i).1 (applyProjHits_boss l s d i).2

/-- The boss section of the tick preserves the invariant. -/
theorem bossStep_inv (s : GameState) (e : TickEnv) (h : BossInvariant s) :
    BossInvariant (bossStep s e) := by
  have h2 : s.boss_active = s.boss.isSome := h
  unfold bossStep
  cases ha : s.boss_active
  · simp only [Bool.false_eq_true, if_false]
    exact h
  · have hsome : s.boss.isSome = true := by rw [← h2, ha]
    obtain ⟨b, hb⟩ := Option.isSome_iff_exists.mp hsome
    rw [hb, if_pos rfl]
    dsimp only
    apply finalBossCheck_inv
    split
    · apply bossContact_inv
      apply applyProjHits_inv
      unfold BossInvariant
      rfl
    · apply applyProjHits_inv
      unfold BossInvariant
      rfl

/-- The cooldown step preserves the invariant. -/
theorem cooldownStep_inv (s : GameState) (dt : ℚ) (h : BossInvariant s) :
    BossInvariant (cooldownStep s dt) :=
  inv_of_fields h (cooldownStep_boss s dt).1 (cooldownStep_boss s dt).2

/-- The movement step preserves the invariant. -/
theorem moveStep_inv (s : GameState) (dt : ℚ) (h : BossInvariant s) :
    BossInvariant (moveStep s dt) := h

/-- The spawn step preserves the invariant. -/
theorem spawnStep_inv (s : GameState) (e : TickEnv) (h : BossInvariant s) :
    BossInvariant (spawnStep s e) :=
  inv_of_fields h (spawnStep_boss s e).1 (spawnStep_boss s e).2

/-- The reap step preserves the invariant. -/
theorem reapStep_inv (s : GameState) (h : BossInvariant s) :
    BossInvariant (reapStep s) := h

/-- The coin step preserves the invariant. -/
theorem coinStep_inv (s : GameState) (e : TickEnv) (h : BossInvariant s) :
    BossInvariant (coinStep s e) := h

/-- The obstacle step preserves the invariant. -/
theorem obstacleStep_inv (s : GameState) (e : TickEnv) (h : BossInvariant s) :
    BossInvariant (obstacleStep s e) :=
  inv_of_fields h (obstacleStep_boss s e).1 (obstacleStep_boss s e).2

/-- The popup step preserves the invariant. -/
theorem popupStep_inv (s : GameState) (dt : ℚ) (h : BossInvariant s) :
    BossInvariant (popupStep s dt) := h

/-- One full tick preserves the invariant. -/
theorem tick_inv (s : GameState) (e : TickEnv) (h : BossInvariant s) :
    BossInvariant (tick s e) := by
  unfold tick
  cases hg : s.game_over
  · simp only [Bool.false_eq_true, if_false]
    exact popupStep_inv _ _ (bossStep_inv _ _ (bossSpawnStep_inv _
      (obstacleStep_inv _ _ (coinStep_inv _ _ (reapStep_inv _
        (spawnStep_inv _ _ (moveStep_inv _ _ (cooldownStep_inv _ _ h))))))))
  · exact h

/-- Every key press preserves the invariant. -/
theorem keyPress_inv (s : GameState) (k : Key) (e : KeyEnv)
    (h : BossInvariant s) : BossInvariant (keyPress s k e) := by
  have h2 : s.boss_active = s.boss.isSome := h
  unfold keyPress
  cases hg : s.game_over
  case true => exact h
  case false =>
    rw [if_neg Bool.false_ne_true]
    cases k
    case space => exact h
    case r => exact h
    case escape => exact h
    case z =>
      cases ha : s.boss_active
      case false =>
        rw [if_neg Bool.false_ne_true]
        exact h
      case true =>
        rw [if_pos rfl]
        have hsome : s.boss.isSome = true := by rw [← h2, ha]
        obtain ⟨b, hb⟩ := Option.isSome_iff_exists.mp hsome
        rw [hb]
        dsimp only
        by_cases hr : |b.x - s.player_x| < 140
        · rw [if_pos hr]
          by_cases hd : b.health - e.meleeDmg ≤ 0
          · rw [if_pos hd]
            apply winBoss_inv
            unfold BossInvariant
            rfl
          · rw [if_neg hd]
            unfold BossInvariant
            rfl
        · rw [if_neg hr]
          exact h
    case x =>
      by_cases hc : s.skill_cd ≤ 0
      · rw [if_pos hc]
        dsimp only
        cases ha : s.boss_active
        · rw [if_neg Bool.false_ne_true]
          unfold clearNearObstacles BossInvariant
          dsimp only
          rw [← h2]
          exact ha.symm
        · rw [if_pos rfl]
          have hsome : s.boss.isSome = true := by rw [← h2, ha]
          obtain ⟨b, hb⟩ := Option.isSome_iff_exists.mp hsome
          rw [hb]
          dsimp only
          by_cases hd : b.health - (40 + pyInt (s.distance / 1000)) ≤ 0
          · rw [if_pos hd]
            apply winBoss_inv
            unfold BossInvariant
            rfl
          · rw [if_neg hd]
            unfold BossInvariant
            rfl
      · rw [if_neg hc]
        exact h

/-- Claim C9: `boss_active` is `True` exactly when the `boss` field holds a
boss object, and this coupling is preserved by construction, by `setup`, by
every tick and by every input command — so there is never a live
`boss_active` flag with a cleared boss to dereference. -/
theorem C9_boss_coupling :
    BossInvariant initState ∧
    (∀ (s : GameState) (a : List ℤ) (b : List (ℤ × ℤ)),
        BossInvariant s → BossInvariant (setupStep s a b)) ∧
    (∀ (s : GameState) (e : TickEnv),
        BossInvariant s → BossInvariant (tick s e)) ∧
    (∀ (s : GameState) (k : Key) (e : KeyEnv),
        BossInvariant s → BossInvariant (keyPress s k e)) :=
  ⟨rfl,
   fun s a b h => inv_of_fields h (setupStep_boss s a b).1 (setupStep_boss s a b).2,
   tick_inv, keyPress_inv⟩

/-- Witness for C9 at the initial state, one tick and one key press. -/
theorem C9_boss_coupling_witness :
    BossInvariant initState ∧
    BossInvariant (tick initState noHitEnv) ∧
    BossInvariant (keyPress initState Key.x trivKeyEnv) :=
  ⟨C9_boss_coupling.1,
   C9_boss_coupling.2.2.1 initState noHitEnv rfl,
   C9_boss_coupling.2.2.2 initState Key.x trivKeyEnv rfl⟩

/-- Truncation `int()` of a non-negative rational is non-negative. -/
theorem pyInt_nonneg {q : ℚ} (h : 0 ≤ q) : 0 ≤ pyInt q := by
  unfold pyInt
  rw [if_pos h]
  exact Int.le_floor.mpr (by exact_mod_cast h)

/-- The ledger facts carried through a tick: score, health and distance are
non-negative, health is at most max health, and the speed is non-negative. -/
def LedgerInv (s : GameState) : Prop :=
  0 ≤ s.score ∧ 0 ≤ s.player_health ∧
  s.player_health ≤ s.player_max_health ∧ 0 ≤ s.distance ∧ 0 ≤ s.speed

/-- The cooldown step keeps the ledger facts. -/
theorem cooldownStep_led (s : GameState) (dt : ℚ) (hp : LedgerInv s) :
    LedgerInv (cooldownStep s dt) := by
  unfold cooldownStep
  split <;> exact hp

/-- The movement step keeps the ledger facts when `dt ≥ 0`. -/
theorem moveStep_led (s : GameState) (dt : ℚ) (hdt : 0 ≤ dt)
    (hp : LedgerInv s) : LedgerInv (moveStep s dt) := by
  obtain ⟨h1, h2, h3, h4, h5⟩ := hp
  have hsd : 0 ≤ s.speed * dt := mul_nonneg h5 hdt
  refine ⟨?_, h2, h3, ?_, h5⟩
  · show 0 ≤ s.score + s.speed * dt * 0.05
    nlinarith
  · show 0 ≤ s.distance + s.speed * dt * 0.6
    nlinarith

/-- The spawn step keeps the ledger facts. -/
theorem spawnStep_led (s : GameState) (e : TickEnv) (hp : LedgerInv s) :
    LedgerInv (spawnStep s e) := by
  unfold spawnStep
  dsimp only
  split <;> split <;> exact hp

/-- The reap step keeps the ledger facts. -/
theorem reapStep_led (s : GameState) (hp : LedgerInv s) :
    LedgerInv (reapStep s) := hp

/-- Accumulating 25 per coin keeps the score non-negative. -/
theorem foldl_add25_nonneg (l : List (ℚ × ℚ)) :
    ∀ sc : ℚ, 0 ≤ sc → 0 ≤ l.foldl (fun a _ => a + 25) sc := by
  induction l with
  | nil => intro sc h; exact h
  | cons a l ih =>
    intro sc h
    rw [List.foldl_cons]
    exact ih _ (by linarith)

/-- The coin step keeps the ledger facts. -/
theorem coinStep_led (s : GameState) (e : TickEnv) (hp : LedgerInv s) :
    LedgerInv (coinStep s e) := by
  obtain ⟨h1, h2, h3, h4, h5⟩ := hp
  exact ⟨foldl_add25_nonneg _ _ h1, h2, h3, h4, h5⟩

/-- One knockback keeps the ledger facts. -/
theorem knockback_led (s : GameState) (hp : LedgerInv s) :
    LedgerInv (knockback s) := by
  obtain ⟨h1, h2, h3, h4, h5⟩ := hp
  exact ⟨le_max_left 0 _, h2, h3, h4, h5⟩

/-- The knockback fold keeps the ledger facts. -/
theorem foldl_knockback_led (l : List ℚ) :
    ∀ s : GameState, LedgerInv s →
      LedgerInv (l.foldl (fun st _ => knockback st) s) := by
  induction l with
  | nil => intro s hp; exact hp
  | cons a l ih =>
    intro s hp
    rw [List.foldl_cons]
    exact ih _ (knockback_led s hp)

/-- The obstacle step keeps the ledger facts. -/
theorem obstacleStep_led (s : GameState) (e : TickEnv) (hp : LedgerInv s) :
    LedgerInv (obstacleStep s e) := by
  unfold obstacleStep
  exact foldl_knockback_led _ _ hp

/-- The boss-spawn step keeps the ledger facts. -/
theorem bossSpawnStep_led (s : GameState) (hp : LedgerInv s) :
    LedgerInv (bossSpawnStep s) := by
  unfold bossSpawnStep
  split <;> exact hp

/-- The projectile-hit fold clamps health into `[0, maxHealth]` whenever the
damage draws are non-negative, and leaves score, max health, distance and
speed untouched. -/
theorem applyProjHits_led (l : List Projectile) :
    ∀ (s : GameState) (d : ℕ → ℤ) (i : ℕ), (∀ j, 0 ≤ d j) →
      0 ≤ s.player_health → s.player_health ≤ s.player_max_health →
      (0 ≤ (applyProjHits s l d i).player_health ∧
       (applyProjHits s l d i).player_health ≤
         (applyProjHits s l d i).player_max_health ∧
       (applyProjHits s l d i).score = s.score ∧
       (applyProjHits s l d i).player_max_health = s.player_max_health ∧
       (applyProjHits s l d i).distance = s.distance ∧
       (applyProjHits s l d i).speed = s.speed) := by
  induction l with
  | nil => intro s d i hd hh hm; exact ⟨hh, hm, rfl, rfl, rfl, rfl⟩
  | cons p ps ih =>
    intro s d i hd hh hm
    simp only [applyProjHits]
    split
    · rename_i hz
      exact ih _ d (i + 1) hd le_rfl (by dsimp only [loseGame]; omega)
    · rename_i hz
      have hh' : 0 ≤ s.player_health - d i := by omega
      have hm' : s.player_health - d i ≤ s.player_max_health := by
        have := hd i
        omega
      exact ih _ d (i + 1) hd hh' hm'

/-- Helper: `win_boss` keeps the score non-negative and does not change health, max
health or distance. -/
theorem winBoss_led (s : GameState) (ex : List ℚ) (hs : 0 ≤ s.score) :
    0 ≤ (winBoss s ex).score ∧
    (winBoss s ex).player_health = s.player_health ∧
    (winBoss s ex).player_max_health = s.player_max_health ∧
    (winBoss s ex).distance = s.distance := by
  unfold winBoss
  cases s.boss
  · exact ⟨hs, rfl, rfl, rfl⟩
  · exact ⟨by dsimp only; linarith, rfl, rfl, rfl⟩

/-- Boss body contact keeps the score non-negative and the health at most
max health (but not necessarily non-negative). -/
theorem bossContact_led (s : GameState) (ex : List ℚ) (hs : 0 ≤ s.score)
    (hm : s.player_health ≤ s.player_max_health) (hd : 0 ≤ s.distance) :
    0 ≤ (bossContact s ex).score ∧
    (bossContact s ex).player_health ≤ (bossContact s ex).player_max_health := by
  unfold bossContact
  cases s.boss
  · exact ⟨hs, hm⟩
  · dsimp only
    have hd0 : (0 : ℤ) ≤ 18 + pyInt (s.distance / 1000) := by
      have := pyInt_nonneg (q := s.distance / 1000) (by positivity)
      omega
    split <;> split <;>
      (refine ⟨?_, ?_⟩ <;> dsimp only [loseGame, winBoss] <;> [linarith; omega])

/-- The trailing boss-HP check keeps the score non-negative and does not
change health or max health. -/
theorem finalBossCheck_led (s : GameState) (ex : List ℚ) (hs : 0 ≤ s.score) :
    0 ≤ (finalBossCheck s ex).score ∧
    (finalBossCheck s ex).player_health = s.player_health ∧
    (finalBossCheck s ex).player_max_health = s.player_max_health := by
  unfold finalBossCheck
  cases s.boss
  · exact ⟨hs, rfl, rfl⟩
  · dsimp only
    split
    · have w := winBoss_led _ ex hs
      exact ⟨w.1, w.2.1, w.2.2.1⟩
    · exact ⟨hs, rfl, rfl⟩

/-- The tail of the boss section (optional contact, then HP check) keeps the
score non-negative and health at most max, and keeps health non-negative
when no boss-body contact happens this tick. -/
theorem bossTail_led (s2 : GameState) (ex : List ℚ) (bh : Bool)
    (hsc : 0 ≤ s2.score) (hh : 0 ≤ s2.player_health)
    (hm : s2.player_health ≤ s2.player_max_health) (hd : 0 ≤ s2.distance) :
    0 ≤ (finalBossCheck (if bh then bossContact s2 ex else s2) ex).score ∧
    (finalBossCheck (if bh then bossContact s2 ex else s2) ex).player_health ≤
      (finalBossCheck (if bh then bossContact s2 ex else s2) ex).player_max_health ∧
    (bh = false →
      0 ≤ (finalBossCheck (if bh then bossContact s2 ex else s2) ex).player_health) := by
  cases bh
  · rw [if_neg Bool.false_ne_true]
    have f := finalBossCheck_led s2 ex hsc
    refine ⟨f.1, ?_, fun _ => ?_⟩
    · rw [f.2.1, f.2.2]; exact hm
    · rw [f.2.1]; exact hh
  · rw [if_pos rfl]
    have c := bossContact_led s2 ex hsc hm hd
    have f := finalBossCheck_led (bossContact s2 ex) ex c.1
    refine ⟨f.1, ?_, fun hf => nomatch hf⟩
    rw [f.2.1, f.2.2]
    exact c.2

/-- The whole boss section keeps the score non-negative and health at most
max, and keeps health non-negative when no boss-body contact happens. -/
theorem bossStep_led (s : GameState) (e : TickEnv) (hp : LedgerInv s)
    (hdmg : ∀ j, 0 ≤ e.projDmg j) :
    0 ≤ (bossStep s e).score ∧
    (bossStep s e).player_health ≤ (bossStep s e).player_max_health ∧
    (e.bossHit = false → 0 ≤ (bossStep s e).player_health) := by
  obtain ⟨h1, h2, h3, h4, h5⟩ := hp
  unfold bossStep
  cases ha : s.boss_active
  · rw [if_neg Bool.false_ne_true]
    exact ⟨h1, h3, fun _ => h2⟩
  · rw [if_pos rfl]
    cases hob : s.boss
    · exact ⟨h1, h3, fun _ => h2⟩
    · dsimp only
      rename_i b
      have ap := applyProjHits_led
        ((projectilesUpdate
            (updateBehavior b e.dt s.player_x s.projectiles e.vyRand).2).filter
          e.projHit)
        { s with boss := some (updateBehavior b e.dt s.player_x s.projectiles e.vyRand).1,
                 boss_active := true,
                 projectiles :=
                   (projectilesUpdate
                       (updateBehavior b e.dt s.player_x s.projectiles e.vyRand).2).filter
                     (fun p => !(e.projHit p)) }
        e.projDmg 0 hdmg h2 h3
      refine bossTail_led _ e.explosion e.bossHit ?_ ap.1 ap.2.1 ?_
      · rw [ap.2.2.1]; exact h1
      · rw [ap.2.2.2.2.1]; exact h4

/-- A fresh 100-health boss 900 units ahead of the player. -/
def cexBossC1 : Boss :=
  { health := 100, max_health := 100, shoot_timer := 0, phase := 1,
    x := 1100, y := 220 }

/-- A live state about to take boss body contact on 10 health. -/
def cexStateC1 : GameState :=
  { initState with
      player_x := 200, player_y := 200, player_health := 10,
      boss := some cexBossC1, boss_active := true }

/-- A tick environment whose only event is boss body contact. -/
def cexEnvC1 : TickEnv := { noHitEnv with bossHit := true }

/-- Counterexample to claim C1: starting a tick with health 10 (inside
`[0, maxHealth]`) and taking boss body contact of `18 + int(0/1000) = 18`
leaves health at `-8` — the boss-contact write path does not clamp health
to 0, so `0 ≤ health` fails after that mutation. -/
theorem C1_cex :
    (0 : ℤ) ≤ cexStateC1.player_health ∧
    cexStateC1.player_health ≤ cexStateC1.player_max_health ∧
    (tick cexStateC1 cexEnvC1).player_health = -8 ∧
    ¬(0 : ℤ) ≤ (tick cexStateC1 cexEnvC1).player_health := by
  refine ⟨by decide, by decide, ?_, ?_⟩ <;>
    norm_num [tick, cooldownStep, moveStep, spawnStep, reapStep, coinStep,
      obstacleStep, bossSpawnStep, bossStep, bossContact, applyProjHits,
      finalBossCheck, updateBehavior, projectilesUpdate, popupStep, loseGame,
      winBoss, spawnObstacle, spawnCoin, emitterUpdate, healthFrac, bossDiv,
      bossInterval, bossPhase, bossMove, bossShotSpeed, pyInt, cexStateC1,
      cexBossC1, cexEnvC1, noHitEnv, initState]

/-- The popup step does not change the score. -/
theorem popupStep_score (s : GameState) (dt : ℚ) :
    (popupStep s dt).score = s.score := rfl

/-- The popup step does not change the health. -/
theorem popupStep_health (s : GameState) (dt : ℚ) :
    (popupStep s dt).player_health = s.player_health := rfl

/-- The popup step does not change the max health. -/
theorem popupStep_maxhealth (s : GameState) (dt : ℚ) :
    (popupStep s dt).player_max_health = s.player_max_health := rfl

/-- In a terminal state the tick only updates the emitters. -/
theorem tick_gameOver (s : GameState) (e : TickEnv) (h : s.game_over = true) :
    tick s e = { s with explosions := s.explosions.map emitterUpdate } := by
  simp [tick, h]

/-- In a live state the tick is the composition of the gameplay phases in
source order. -/
theorem tick_live (s : GameState) (e : TickEnv) (h : s.game_over = false) :
    tick s e =
      popupStep
        (bossStep
          (bossSpawnStep
            (obstacleStep
              (coinStep
                (reapStep
                  (spawnStep
                    (moveStep
                      (cooldownStep
                        { s with explosions := s.explosions.map emitterUpdate }
                        e.dt)
                      e.dt)
                    e))
                e)
              e))
          e)
        e.dt := by
  unfold tick
  rw [h, if_neg Bool.false_ne_true]

/-- Claim C1 (amended): after a tick from a state satisfying the invariants
(with non-negative elapsed time, speed and damage draws), the score is
still non-negative and health is still at most max health; health is also
still non-negative provided no boss body contact happened this tick — the
boss-contact path is the one write that does not clamp health at 0 (the
run ends on that tick, but the stored health can be negative). -/
theorem C1_clamp (s : GameState) (e : TickEnv)
    (hsc : 0 ≤ s.score) (hh : 0 ≤ s.player_health)
    (hm : s.player_health ≤ s.player_max_health)
    (hdt : 0 ≤ e.dt) (hsp : 0 ≤ s.speed) (hd : 0 ≤ s.distance)
    (hdmg : ∀ i, 0 ≤ e.projDmg i) :
    0 ≤ (tick s e).score ∧
    (tick s e).player_health ≤ (tick s e).player_max_health ∧
    (e.bossHit = false → 0 ≤ (tick s e).player_health) := by
  cases hg : s.game_over
  · rw [tick_live s e hg, popupStep_score, popupStep_health, popupStep_maxhealth]
    have p0 : LedgerInv { s with explosions := s.explosions.map emitterUpdate } :=
      ⟨hsc, hh, hm, hd, hsp⟩
    have p1 := cooldownStep_led _ e.dt p0
    have p2 := moveStep_led _ e.dt hdt p1
    have p3 := spawnStep_led _ e p2
    have p4 := reapStep_led _ p3
    have p5 := coinStep_led _ e p4
    have p6 := obstacleStep_led _ e p5
    have p7 := bossSpawnStep_led _ p6
    exact bossStep_led _ e p7 hdmg
  · rw [tick_gameOver s e hg]
    exact ⟨hsc, hm, fun _ => hh⟩

/-- Witness for the amended C1 at the initial state and a no-event tick. -/
theorem C1_clamp_witness :
    (0 : ℚ) ≤ initState.score ∧ (0 : ℤ) ≤ initState.player_health ∧
    initState.player_health ≤ initState.player_max_health ∧
    0 ≤ (tick initState noHitEnv).score ∧
    (tick initState noHitEnv).player_health ≤
      (tick initState noHitEnv).player_max_health ∧
    (noHitEnv.bossHit = false → 0 ≤ (tick initState noHitEnv).player_health) := by
  have h := C1_clamp initState noHitEnv (by decide) (by decide) (by decide)
    (by decide) (by decide) (by decide) (fun i => by show (0 : ℤ) ≤ 8; decide)
  exact ⟨by decide, by decide, by decide, h.1, h.2.1, h.2.2⟩

end MergeRunner
